import Mathlib

/-!
# Verification of the openstory chat-history persistence layer

Shallow embedding of the server-side persistence and conversation logic of
the `openstory_ui` repository:

* `server/src/utils/fileStorage.ts` — key-addressed file store for chat
  histories (`getChatFilePath`, `loadChatHistory`, `saveChatHistory`,
  `appendMessage`, `deleteChatHistory`);
* `server/src/services/openai.ts` — provider-request construction
  (`getChatCompletion`);
* `server/src/routes/chat.ts` — the `POST /api/chat/:gameId` handler
  (modelled as `respond`);
* `server/src/utils/gamesLoader.ts` — `getGameById`;
* `shared/types.ts` — `Message`, `ChatHistory`, `Game`.

The file system is modelled as a map from file paths to file contents,
where a file content is either unparsable text or a parsed JSON value.
`JSON.stringify`/`JSON.parse` round-tripping is modelled as the identity on
parsed values (faithful for the JSON-representable records written here:
strings, integer millisecond timestamps, arrays, objects).  `Date.now()`
results are passed in explicitly as integer parameters, one per call site.
Directory creation (`ensureDirectoryExists`) has no observable effect in
this model and is elided.
-/

namespace OpenStory

/-- The `role` field of `shared/types.ts`'s `Message`:
`'user' | 'assistant' | 'system'`. -/
inductive Role where
  | user
  | assistant
  | system
deriving DecidableEq, Repr

/-- The JS string literal denoted by each role. -/
def Role.toStr : Role → String
  | .user => "user"
  | .assistant => "assistant"
  | .system => "system"

/-- `shared/types.ts` `Message`: `{role, content, timestamp}`. -/
structure Message where
  role : Role
  content : String
  timestamp : Int
deriving DecidableEq, Repr

/-- `shared/types.ts` `ChatHistory`:
`{messages, gameId, sessionId, createdAt, updatedAt}`. -/
structure ChatHistory where
  messages : List Message
  gameId : String
  sessionId : String
  createdAt : Int
  updatedAt : Int
deriving DecidableEq, Repr

/-- A parsed JSON value (`JSON.parse` output). -/
inductive Json where
  | null
  | bool (b : Bool)
  | num (n : Int)
  | str (s : String)
  | arr (elems : List Json)
  | obj (fields : List (String × Json))

/-- A runtime value obtained from `JSON.parse` of a stored file.
`loadChatHistory` performs no shape validation, so the value is either a
record of the expected `ChatHistory` shape (`history`) or any other JSON
value (`other`), returned as-is behind the unchecked type assertion
`const chatHistory: ChatHistory = JSON.parse(fileContent)`. -/
inductive JsVal where
  | history (h : ChatHistory)
  | other (j : Json)

/-- The content of one stored file: either text that `JSON.parse` rejects,
or the parsed value. -/
inductive FileData where
  | unparsable
  | parsed (v : JsVal)

/-- The file system, as a map from file paths to file contents. -/
def Store : Type := String → Option FileData

/-- A file system with no files. -/
def emptyStore : Store := fun _ => none

/-- `fs.writeFile`: (over)write one file. -/
def writeFile (store : Store) (p : String) (d : FileData) : Store :=
  fun q => if q = p then some d else store q

/-- Removal of one file from the file system. -/
def removeFile (store : Store) (p : String) : Store :=
  fun q => if q = p then none else store q

/-- `fs.unlink`: fails (ENOENT) when the file does not exist. -/
def unlink (store : Store) (p : String) : Except Unit Store :=
  match store p with
  | none => .error ()
  | some _ => .ok (removeFile store p)

/-! ## `path.join` (Node, POSIX)

`path.join` concatenates its segments with `/` and normalizes the result:
empty parts and `.` segments disappear, repeated separators collapse, and
`..` pops the preceding segment.  The base directory `USER_DATA_DIR` is
`path.join(__dirname, '..', '..', '..', 'user_data')`; the
deployment-specific absolute prefix is modelled as the fixed relative base
segment `"user_data"`. -/

/-- One step of path normalization over the segment list of the joined
path: drop empty and `.` segments, let `..` pop the previous segment. -/
def normStep (acc : List (List Char)) (seg : List Char) : List (List Char) :=
  if seg = [] ∨ seg = ['.'] then acc
  else if seg = ['.', '.'] then
    if acc = [] ∨ acc.getLast? = some ['.', '.'] then acc ++ [seg]
    else acc.dropLast
  else acc ++ [seg]

/-- Node's `path.join` on POSIX: join the parts with `/`, then normalize.
Joining-then-splitting on `/` is the concatenation of each part's own
`/`-split, which is then normalized segment by segment. -/
def pathJoin (parts : List String) : String :=
  String.mk (List.intercalate ['/']
    ((parts.flatMap (fun p => p.data.splitOn '/')).foldl normStep []))

/-- `USER_DATA_DIR` from `fileStorage.ts` (deployment prefix elided). -/
def USER_DATA_DIR : String := "user_data"

/-! ## fileStorage.ts -/

/-- `getChatFilePath`:
`path.join(USER_DATA_DIR, sessionId, gameId, 'chat.json')`. -/
def getChatFilePath (sessionId gameId : String) : String :=
  pathJoin [USER_DATA_DIR, sessionId, gameId, "chat.json"]

/-- `loadChatHistory`: read and `JSON.parse` the file; on any error
(missing file or unparsable content) return a fresh empty history with
`createdAt = updatedAt = now`.  A successfully parsed value is returned
as-is, with no shape validation.  `now` is the `Date.now()` taken in the
catch branch. -/
def loadChatHistory (store : Store) (now : Int) (sessionId gameId : String) :
    JsVal :=
  match store (getChatFilePath sessionId gameId) with
  | some (.parsed v) => v
  | _ =>
    .history { messages := [], gameId := gameId, sessionId := sessionId,
               createdAt := now, updatedAt := now }

/-- Property lookup on a JS object's field list (first binding wins). -/
def jsLookup : List (String × Json) → String → Option Json
  | [], _ => none
  | (k, v) :: rest, key => if k = key then some v else jsLookup rest key

/-- JS property access `j[key]`: `none` models `undefined`.  (Reading a
property of `null` throws in JS rather than yielding `undefined`; every
use site below treats both outcomes as the same failure.) -/
def jsProp : Json → String → Option Json
  | .obj fs, key => jsLookup fs key
  | _, _ => none

/-- Set (or add) a field on a JS object's field list. -/
def setField : List (String × Json) → String → Json → List (String × Json)
  | [], k, v => [(k, v)]
  | (k', v') :: rest, k, v =>
    if k' = k then (k, v) :: rest else (k', v') :: setField rest k v

/-- The JSON value of a well-formed `Message` record. -/
def messageToJson (m : Message) : Json :=
  .obj [("role", .str m.role.toStr), ("content", .str m.content),
        ("timestamp", .num m.timestamp)]

/-- The `chatHistory.messages.push(message)` line of `appendMessage`, on
the untyped runtime value.  On a well-formed history it appends; on any
other value it succeeds only when the value is an object whose `messages`
property is an array — otherwise the property access / `.push` call throws
a `TypeError` (`none`). -/
def pushMessage : JsVal → Message → Option JsVal
  | .history h, m => some (.history { h with messages := h.messages ++ [m] })
  | .other j, m =>
    match j, jsProp j "messages" with
    | .obj fs, some (.arr xs) =>
      some (.other (.obj (setField fs "messages"
        (.arr (xs ++ [messageToJson m])))))
    | _, _ => none

/-- The `chatHistory.updatedAt = Date.now()` line of `saveChatHistory`, on
the untyped runtime value.  Assignment on a non-object throws in strict
mode (`none`); this branch is unreachable through `appendMessage`, whose
push step already fails on every non-object. -/
def setUpdatedAt (now : Int) : JsVal → Option JsVal
  | .history h => some (.history { h with updatedAt := now })
  | .other (.obj fs) => some (.other (.obj (setField fs "updatedAt" (.num now))))
  | .other _ => none

/-- `saveChatHistory`: set `updatedAt := now`, then write the serialized
record to the resolved path (directory creation elided).  Returns the
record as written together with the new file system. -/
def saveChatHistory (store : Store) (now : Int) (sessionId gameId : String)
    (v : JsVal) : Option (JsVal × Store) :=
  match setUpdatedAt now v with
  | none => none
  | some v' =>
    some (v', writeFile store (getChatFilePath sessionId gameId) (.parsed v'))

/-- `appendMessage`: load (or create) the history, push the message, save,
and return the updated history.  `tLoad` and `tSave` are the `Date.now()`
values taken inside the load's catch branch and inside the save. -/
def appendMessage (store : Store) (tLoad tSave : Int) (sessionId gameId : String)
    (m : Message) : Option (JsVal × Store) :=
  let chatHistory := loadChatHistory store tLoad sessionId gameId
  match pushMessage chatHistory m with
  | none => none
  | some v => saveChatHistory store tSave sessionId gameId v

/-- `deleteChatHistory`: `fs.unlink` the file; the catch branch swallows
the error when the file does not exist ("that's fine - already deleted"). -/
def deleteChatHistory (store : Store) (sessionId gameId : String) : Store :=
  match unlink store (getChatFilePath sessionId gameId) with
  | .error _ => store
  | .ok s => s

/-! ## gamesLoader.ts -/

/-- `shared/types.ts` `Game`. -/
structure Game where
  id : String
  name : String
  description : String
  systemPrompt : String
  thumbnailUrl : String
deriving DecidableEq, Repr

/-- `getGameById`: `games.find((game) => game.id === gameId)`, over the
loaded game catalog. -/
def getGameById (games : List Game) (gameId : String) : Option Game :=
  games.find? (fun g => g.id == gameId)

/-! ## services/openai.ts -/

/-- One entry of the `messages` array sent to the completion provider:
`{role: ..., content: ...}`.  The fields hold arbitrary runtime values
(`none` models `undefined`), since the history elements are taken from the
parsed file without validation. -/
structure CompletionParam where
  role : Option Json
  content : Option Json

/-- The filter predicate `(msg) => msg.role !== 'system'` applied to a
runtime history element: true unless the `role` property is exactly the
string `'system'`. -/
def isSystemRole (msg : Json) : Bool :=
  match jsProp msg "role" with
  | some (.str s) => s == "system"
  | _ => false

/-- The `messages` array built in `getChatCompletion`:
`[system message, ...chatHistory.filter(msg => msg.role !== 'system')
    .map(msg => ({role: msg.role, content: msg.content})), user message]`. -/
def buildCompletionMessages (systemPrompt : String) (chatHistory : List Json)
    (userMessage : String) : List CompletionParam :=
  ⟨some (.str "system"), some (.str systemPrompt)⟩
    :: ((chatHistory.filter (fun msg => !(isSystemRole msg))).map
          (fun msg => ⟨jsProp msg "role", jsProp msg "content"⟩)
        ++ [⟨some (.str "user"), some (.str userMessage)⟩])

/-- The completion provider (the external OpenAI call), abstracted as a
function from the request's `messages` array to either a raised error or
`completion.choices[0]?.message?.content` (`none` = missing content). -/
def Provider : Type := List CompletionParam → Except String (Option String)

/-- `getChatCompletion`: build the messages array, invoke the provider,
and wrap non-empty content as an assistant `Message` stamped `now`.
Missing or empty content raises `'No response content from OpenAI'`
(`!assistantContent` is also true for the empty string); provider errors
are re-thrown.  The request actually sent is returned alongside the
outcome so that theorems can speak about it. -/
def getChatCompletion (systemPrompt : String) (chatHistory : List Json)
    (userMessage : String) (provider : Provider) (now : Int) :
    List CompletionParam × Except String Message :=
  let messages := buildCompletionMessages systemPrompt chatHistory userMessage
  (messages,
    match provider messages with
    | .error e => .error e
    | .ok none => .error "No response content from OpenAI"
    | .ok (some content) =>
      if content = "" then .error "No response content from OpenAI"
      else .ok ⟨.assistant, content, now⟩)

/-! ## routes/chat.ts — POST /api/chat/:gameId -/

/-- JS `String.prototype.trim()`: strip leading and trailing whitespace
(the ASCII whitespace characters; JS also strips further Unicode space
characters, not relevant to any input considered here). -/
def jsTrim (s : String) : String :=
  String.mk
    (((s.data.dropWhile Char.isWhitespace).reverse.dropWhile
      Char.isWhitespace).reverse)

/-- The failure classes of the POST handler, tagged by origin: the 400
validation response, the 404 unknown-game response, the 500 response
caused by a provider-call failure, and the 500 response caused by any
other thrown error (e.g. a `TypeError` from pushing onto malformed stored
data). -/
inductive RespondError where
  | validationError
  | notFoundError
  | providerError (msg : String)
  | internalError

/-- The `Date.now()` values taken at the successive call sites inside one
POST request, in program order: the handler's own load, the user message's
timestamp, the first `appendMessage`'s internal load and save, the
assistant message's timestamp, and the second `appendMessage`'s internal
load and save. -/
structure RespondTimes where
  tHist : Int
  tUser : Int
  tAppend1Load : Int
  tAppend1Save : Int
  tAssistant : Int
  tAppend2Load : Int
  tAppend2Save : Int

/-- Result of one POST request: the HTTP outcome, the file system after
the request, and (as an observation) the request passed to the completion
provider, when the provider was invoked. -/
structure RespondResult where
  outcome : Except RespondError (Message × Message)
  store : Store
  sent : Option (List CompletionParam)

/-- The runtime value of `chatHistory.messages` for the loaded record, as
passed by the handler to `getChatCompletion`.  For a well-formed history
it is the stored message array; for any other object it is the raw
`messages` property.  Non-array cases never reach the provider call: the
user-message `appendMessage` fails first on exactly those values. -/
def jsMessages : JsVal → List Json
  | .history h => h.messages.map messageToJson
  | .other j =>
    match jsProp j "messages" with
    | some (.arr xs) => xs
    | _ => []

/-- The `POST /api/chat/:gameId` handler.  `message` is the request
body's `message` field (`none` covers a missing or non-string value,
rejected together with the empty string by
`!message || typeof message !== 'string' || message.trim() === ''`).
Steps, as in the source: validate, resolve the game, load the history,
build and persist the user message, call the provider with the system
prompt plus the pre-append history plus the trimmed user text, persist the
assistant message, return both.  Every thrown error is caught by the
handler's catch block; the model tags it by origin. -/
def respond (store : Store) (games : List Game) (sessionId gameId : String)
    (message : Option String) (provider : Provider) (t : RespondTimes) :
    RespondResult :=
  match message with
  | none => ⟨.error .validationError, store, none⟩
  | some msg =>
    if jsTrim msg = "" then ⟨.error .validationError, store, none⟩
    else
      match getGameById games gameId with
      | none => ⟨.error .notFoundError, store, none⟩
      | some game =>
        let chatHistory := loadChatHistory store t.tHist sessionId gameId
        let userMessage : Message := ⟨.user, jsTrim msg, t.tUser⟩
        match appendMessage store t.tAppend1Load t.tAppend1Save sessionId
            gameId userMessage with
        | none => ⟨.error .internalError, store, none⟩
        | some (_, store1) =>
          let r := getChatCompletion game.systemPrompt (jsMessages chatHistory)
            userMessage.content provider t.tAssistant
          match r.2 with
          | .error e => ⟨.error (.providerError e), store1, some r.1⟩
          | .ok assistantMessage =>
            match appendMessage store1 t.tAppend2Load t.tAppend2Save sessionId
                gameId assistantMessage with
            | none => ⟨.error .internalError, store1, some r.1⟩
            | some (_, store2) =>
              ⟨.ok (userMessage, assistantMessage), store2, some r.1⟩

/-! ## Auxiliary definitions used by the statements below -/

/-- Failure of one provider call as the spec's `ProviderError` describes
it: the call raises, or it returns missing or empty content. -/
def providerFails (r : Except String (Option String)) : Prop :=
  match r with
  | .error _ => True
  | .ok none => True
  | .ok (some c) => c = ""

/-- Whether a provider-request entry is a system-role entry. -/
def isSystemParam (e : CompletionParam) : Bool :=
  match e.role with
  | some (.str s) => s == "system"
  | _ => false

/-- The message list that `loadChatHistory` materializes for a key, when
the stored value is a well-formed history or absent/unparsable (`none`
when the stored value parses to something else).  Unlike the full loaded
record, this observation does not depend on the current time. -/
def storedMessages (store : Store) (sessionId gameId : String) :
    Option (List Message) :=
  match store (getChatFilePath sessionId gameId) with
  | some (.parsed (.history h)) => some h.messages
  | some (.parsed (.other _)) => none
  | _ => some []

/-- An identifier that contains no path separator and is not one of the
special path segments `""`, `"."`, `".."`. -/
def safeId (s : String) : Prop :=
  s.data ≠ [] ∧ '/' ∉ s.data ∧ s ≠ "." ∧ s ≠ ".."

/-- One `appendMessage` call in a sequential trace, with the `Date.now()`
values of its internal load and save. -/
structure AppendOp where
  m : Message
  tLoad : Int
  tSave : Int

/-- Run a sequence of `appendMessage` calls on one key, each seeing the
file system left by the previous one; a failed append (thrown `TypeError`)
leaves the file system unchanged. -/
def runAppends (sessionId gameId : String) : Store → List AppendOp → Store
  | store, [] => store
  | store, op :: rest =>
    match appendMessage store op.tLoad op.tSave sessionId gameId op.m with
    | none => runAppends sessionId gameId store rest
    | some (_, st') => runAppends sessionId gameId st' rest

/-- Two concurrent `appendMessage` calls on the same key, interleaved so
that both complete their (awaited) load step before either performs its
(awaited) save step.  `appendMessage` is `load; push; save` with no
per-key lock, so this interleaving is admitted by the source: each call
reads the original file in its load step, and the second save overwrites
the first. -/
def appendPairBothLoadFirst (store : Store) (sessionId gameId : String)
    (m1 m2 : Message) (t1L t2L t1S t2S : Int) : Option Store :=
  let v1 := loadChatHistory store t1L sessionId gameId
  let v2 := loadChatHistory store t2L sessionId gameId
  (pushMessage v1 m1).bind fun w1 =>
    (saveChatHistory store t1S sessionId gameId w1).bind fun r1 =>
      (pushMessage v2 m2).bind fun w2 =>
        (saveChatHistory r1.2 t2S sessionId gameId w2).map fun r2 => r2.2

/-- The record as the push-then-save path of `appendMessage` persists it
for a well-formed history: the message appended, `updatedAt` refreshed. -/
def appended (hist : ChatHistory) (m : Message) (tS : Int) : ChatHistory :=
  { hist with messages := hist.messages ++ [m], updatedAt := tS }

instance (s : String) : Decidable (safeId s) := by
  unfold safeId; infer_instance

/-- A file system holding, under the key `("s", "g")`, a record whose
content is the JSON literal `null` — parsable but not a `ChatHistory`. -/
def storeWithNullRecord : Store :=
  writeFile emptyStore (getChatFilePath "s" "g") (.parsed (.other .null))

/-- A file system holding, under the key `("s", "g")`, an empty
well-formed history first persisted at time 5. -/
def storeCreatedFive : Store :=
  writeFile emptyStore (getChatFilePath "s" "g")
    (.parsed (.history ⟨[], "g", "s", 5, 5⟩))

/-- The game of the spec scenario: `fantasy-quest` with system prompt
`You are a wizard.`. -/
def demoGame : Game :=
  ⟨"fantasy-quest", "Fantasy Quest", "A quest.", "You are a wizard.", "thumb"⟩

end OpenStory

namespace OpenStory

/-! ## Shared lemmas -/

/-- Splitting on a separator that does not occur returns one segment. -/
theorem splitOn_of_not_mem (l : List Char) (h : '/' ∉ l) :
    l.splitOn '/' = [l] := by
  apply List.splitOnP_eq_single
  intro x hx
  simp only [beq_iff_eq]
  exact fun hxe => h (hxe ▸ hx)

/-- Normalization leaves an ordinary segment in place. -/
theorem normStep_plain (acc : List (List Char)) (seg : List Char)
    (h1 : seg ≠ []) (h2 : seg ≠ ['.']) (h3 : seg ≠ ['.', '.']) :
    normStep acc seg = acc ++ [seg] := by
  simp [normStep, h1, h2, h3]

/-- A safe identifier is, as a character list, neither empty nor a dot
segment. -/
theorem safeId_data_ne (s : String) (hs : safeId s) :
    s.data ≠ [] ∧ s.data ≠ ['.'] ∧ s.data ≠ ['.', '.'] := by
  obtain ⟨h1, _, h3, h4⟩ := hs
  refine ⟨h1, fun h => h3 ?_, fun h => h4 ?_⟩
  · cases s; exact congrArg String.mk (by simpa using h)
  · cases s; exact congrArg String.mk (by simpa using h)

/-- On safe identifiers, `getChatFilePath` is the plain interleaving of
the four segments with the separator: normalization does nothing. -/
theorem getChatFilePath_eval (s g : String) (hs : safeId s) (hg : safeId g) :
    getChatFilePath s g = String.mk (List.intercalate ['/']
      ["user_data".data, s.data, g.data, "chat.json".data]) := by
  obtain ⟨hs1, hs2, hs3⟩ := safeId_data_ne s hs
  obtain ⟨hg1, hg2, hg3⟩ := safeId_data_ne g hg
  have hsp : s.data.splitOn '/' = [s.data] := splitOn_of_not_mem _ hs.2.1
  have hgp : g.data.splitOn '/' = [g.data] := splitOn_of_not_mem _ hg.2.1
  unfold getChatFilePath pathJoin USER_DATA_DIR
  simp only [List.flatMap_cons, List.flatMap_nil, hsp, hgp]
  rw [show "user_data".data.splitOn '/' = ["user_data".data] by rfl]
  rw [show "chat.json".data.splitOn '/' = ["chat.json".data] by rfl]
  simp only [List.append_nil, List.cons_append, List.nil_append]
  rw [List.foldl_cons, List.foldl_cons, List.foldl_cons, List.foldl_cons,
    List.foldl_nil]
  rw [normStep_plain _ _ (by decide) (by decide) (by decide)]
  rw [normStep_plain _ _ hs1 hs2 hs3]
  rw [normStep_plain _ _ hg1 hg2 hg3]
  rw [normStep_plain _ _ (by decide) (by decide) (by decide)]
  rfl

/-- A key whose `storedMessages` observation is defined loads as a
well-formed history with exactly those messages, at any time. -/
theorem load_of_storedMessages (store : Store) (sid gid : String)
    (ms : List Message) (tn : Int)
    (h : storedMessages store sid gid = some ms) :
    ∃ hist, loadChatHistory store tn sid gid = .history hist ∧
      hist.messages = ms := by
  unfold storedMessages at h
  cases hst : store (getChatFilePath sid gid) with
  | none =>
    rw [hst] at h
    have hms : [] = ms := by simpa using h
    exact ⟨⟨[], gid, sid, tn, tn⟩, by simp [loadChatHistory, hst], hms⟩
  | some d =>
    cases d with
    | unparsable =>
      rw [hst] at h
      have hms : [] = ms := by simpa using h
      exact ⟨⟨[], gid, sid, tn, tn⟩, by simp [loadChatHistory, hst], hms⟩
    | parsed v =>
      cases v with
      | history hist =>
        rw [hst] at h
        have hms : hist.messages = ms := by simpa using h
        exact ⟨hist, by simp [loadChatHistory, hst], hms⟩
      | other j =>
        rw [hst] at h
        simp at h

/-- On a key that loads as a well-formed history, `appendMessage`
succeeds and writes the appended record. -/
theorem appendMessage_of_history (store : Store) (sid gid : String)
    (hist : ChatHistory) (m : Message) (tL tS : Int)
    (hload : loadChatHistory store tL sid gid = .history hist) :
    appendMessage store tL tS sid gid m
      = some (JsVal.history (appended hist m tS),
          writeFile store (getChatFilePath sid gid)
            (.parsed (.history (appended hist m tS)))) := by
  simp [appendMessage, hload, pushMessage, saveChatHistory, setUpdatedAt,
    appended]

/-- One successful `appendMessage` extends the stored messages by the
appended message. -/
theorem appendMessage_extends (store : Store) (sid gid : String)
    (m : Message) (tL tS : Int) (ms : List Message)
    (h : storedMessages store sid gid = some ms) :
    ∃ v st', appendMessage store tL tS sid gid m = some (v, st') ∧
      storedMessages st' sid gid = some (ms ++ [m]) := by
  obtain ⟨hist, hload, hmsgs⟩ := load_of_storedMessages store sid gid ms tL h
  refine ⟨JsVal.history (appended hist m tS),
    writeFile store (getChatFilePath sid gid)
      (.parsed (.history (appended hist m tS))),
    appendMessage_of_history store sid gid hist m tL tS hload, ?_⟩
  simp [storedMessages, writeFile, appended, hmsgs]

/-- A key that loads as a well-formed history at one time does so at
every time. -/
theorem load_history_any_time (store : Store) (sid gid : String) (t1 t2 : Int)
    (h0 : ChatHistory) (h : loadChatHistory store t1 sid gid = .history h0) :
    ∃ h1, loadChatHistory store t2 sid gid = .history h1 := by
  unfold loadChatHistory at h ⊢
  cases hst : store (getChatFilePath sid gid) with
  | none => exact ⟨_, rfl⟩
  | some d =>
    cases d with
    | unparsable => exact ⟨_, rfl⟩
    | parsed v =>
      rw [hst] at h
      cases v with
      | history hist => exact ⟨hist, rfl⟩
      | other j => simp at h

/-- The `role` property of a serialized message. -/
theorem jsProp_role (m : Message) :
    jsProp (messageToJson m) "role" = some (.str m.role.toStr) := rfl

/-- The `content` property of a serialized message. -/
theorem jsProp_content (m : Message) :
    jsProp (messageToJson m) "content" = some (.str m.content) := rfl

/-- The filter predicate of `getChatCompletion` agrees with the typed
role test on serialized messages. -/
theorem isSystemRole_messageToJson (m : Message) :
    isSystemRole (messageToJson m) = (m.role == Role.system) := by
  cases hm : m.role <;> simp [isSystemRole, jsProp_role, Role.toStr, hm]

/-- System-entry detection on a projected entry agrees with
`isSystemRole` on the underlying value. -/
theorem isSystemParam_proj (j : Json) (c : Option Json) :
    isSystemParam ⟨jsProp j "role", c⟩ = isSystemRole j := by
  unfold isSystemParam isSystemRole
  cases h : jsProp j "role" with
  | none => rfl
  | some v => cases v <;> rfl

/-- Filtering serialized messages by the runtime role test equals
serializing the messages filtered by the typed role test. -/
theorem buildCompletionMessages_middle (h0msgs : List Message) :
    (h0msgs.map messageToJson).filter (fun msg => !(isSystemRole msg))
      = (h0msgs.filter (fun m => !(m.role == Role.system))).map
          messageToJson := by
  rw [List.filter_map]
  exact congrArg (List.map messageToJson)
    (List.filter_congr (fun m _ => by
      simp [Function.comp, isSystemRole_messageToJson]))

end OpenStory

namespace OpenStory

/-! ## Claim C1 -/

/-- Claim C1, counterexample: starting from an empty log, two
`appendMessage` calls on the same key whose load steps both complete
before either save step finish with a single stored message — the first
append is silently lost, so the final length 1 is smaller than 2.  This
interleaving is possible because `appendMessage` takes no per-key lock
between its load and its save. -/
theorem appendMessage_concurrent_lost_update :
    ((appendPairBothLoadFirst emptyStore "s" "g" ⟨.user, "a", 1⟩
        ⟨.user, "b", 2⟩ 0 0 3 4).map (fun st => loadChatHistory st 9 "s" "g"))
      = some (.history ⟨[⟨.user, "b", 2⟩], "g", "s", 0, 4⟩) ∧
    ([(⟨.user, "b", 2⟩ : Message)] : List Message).length < 2 :=
  ⟨rfl, by decide⟩

/-- Claim C1, amended: two `appendMessage` calls on the same key executed
sequentially — the second load seeing the first save — both succeed and
the final stored messages contain both appended messages in order, so the
final length from an empty log is 2.  (Concurrent interleavings are not
serialized and can lose the earlier write, as the counterexample shows.) -/
theorem appendMessage_sequential_pair_keeps_both (store : Store)
    (sid gid : String) (m1 m2 : Message) (t1L t1S t2L t2S : Int)
    (ms : List Message)
    (h : storedMessages store sid gid = some ms) :
    ∃ v1 st1 v2 st2,
      appendMessage store t1L t1S sid gid m1 = some (v1, st1) ∧
      appendMessage st1 t2L t2S sid gid m2 = some (v2, st2) ∧
      storedMessages st2 sid gid = some (ms ++ [m1, m2]) := by
  obtain ⟨v1, st1, h1, hs1⟩ := appendMessage_extends store sid gid m1 t1L t1S ms h
  obtain ⟨v2, st2, h2, hs2⟩ :=
    appendMessage_extends st1 sid gid m2 t2L t2S (ms ++ [m1]) hs1
  exact ⟨v1, st1, v2, st2, h1, h2, by simpa using hs2⟩

/-- Claim C1, witness: the sequential pair on an empty store. -/
theorem appendMessage_sequential_pair_keeps_both_witness :
    ∃ v1 st1 v2 st2,
      appendMessage emptyStore 0 3 "s" "g" ⟨.user, "a", 1⟩ = some (v1, st1) ∧
      appendMessage st1 5 6 "s" "g" ⟨.user, "b", 2⟩ = some (v2, st2) ∧
      storedMessages st2 "s" "g"
        = some ([] ++ [⟨.user, "a", 1⟩, ⟨.user, "b", 2⟩]) :=
  appendMessage_sequential_pair_keeps_both emptyStore "s" "g"
    ⟨.user, "a", 1⟩ ⟨.user, "b", 2⟩ 0 3 5 6 [] rfl

/-! ## Claim C3 -/

/-- Claim C3: for a key with no persisted record, or whose record is
unparsable, `loadChatHistory` returns a freshly materialized log with
empty messages, the given session and game ids, and
`createdAt = updatedAt = now`; no error is propagated (the function is
total on these inputs). -/
theorem loadChatHistory_fresh_on_absent_or_malformed (store : Store)
    (now : Int) (sessionId gameId : String)
    (h : store (getChatFilePath sessionId gameId) = none ∨
         store (getChatFilePath sessionId gameId) = some .unparsable) :
    loadChatHistory store now sessionId gameId
      = .history { messages := [], gameId := gameId, sessionId := sessionId,
                   createdAt := now, updatedAt := now } := by
  rcases h with h | h <;> simp [loadChatHistory, h]

/-- Claim C3, witness: a never-seen key on the empty file system. -/
theorem loadChatHistory_fresh_witness :
    loadChatHistory emptyStore 7 "s1" "g1"
      = .history { messages := [], gameId := "g1", sessionId := "s1",
                   createdAt := 7, updatedAt := 7 } :=
  loadChatHistory_fresh_on_absent_or_malformed emptyStore 7 "s1" "g1"
    (Or.inl rfl)

/-! ## Claim C5 -/

/-- Claim C5, counterexample: `getChatFilePath` is not injective over all
string inputs — the distinct pairs `("a/b", "c")` and `("a", "b/c")`
resolve to the same storage location, because `path.join` treats the
separator inside an id as a path boundary. -/
theorem getChatFilePath_collision :
    getChatFilePath "a/b" "c" = getChatFilePath "a" "b/c" ∧
    ¬ ((("a/b" : String), ("c" : String))
        = (("a" : String), ("b/c" : String))) :=
  ⟨by decide, by decide⟩

/-- Claim C5, amended: the mapping is a pure function (determinism is
immediate since `getChatFilePath` is a function of its two arguments),
and it is injective on safe identifiers — those that are nonempty,
contain no separator, and are not the special segments dot or dot-dot.
Distinct pairs of safe identifiers never collide. -/
theorem getChatFilePath_injective_on_safe_ids (s1 g1 s2 g2 : String)
    (hs1 : safeId s1) (hg1 : safeId g1) (hs2 : safeId s2) (hg2 : safeId g2)
    (heq : getChatFilePath s1 g1 = getChatFilePath s2 g2) :
    s1 = s2 ∧ g1 = g2 := by
  rw [getChatFilePath_eval s1 g1 hs1 hg1, getChatFilePath_eval s2 g2 hs2 hg2]
    at heq
  have hd : List.intercalate ['/']
        ["user_data".data, s1.data, g1.data, "chat.json".data]
      = List.intercalate ['/']
        ["user_data".data, s2.data, g2.data, "chat.json".data] :=
    congrArg String.data heq
  have hx1 : ∀ l ∈ ["user_data".data, s1.data, g1.data, "chat.json".data],
      '/' ∉ l := by
    intro l hl
    simp only [List.mem_cons, List.not_mem_nil, or_false] at hl
    rcases hl with h | h | h | h
    · subst h; decide
    · subst h; exact hs1.2.1
    · subst h; exact hg1.2.1
    · subst h; decide
  have hx2 : ∀ l ∈ ["user_data".data, s2.data, g2.data, "chat.json".data],
      '/' ∉ l := by
    intro l hl
    simp only [List.mem_cons, List.not_mem_nil, or_false] at hl
    rcases hl with h | h | h | h
    · subst h; decide
    · subst h; exact hs2.2.1
    · subst h; exact hg2.2.1
    · subst h; decide
  have hsplit : ["user_data".data, s1.data, g1.data, "chat.json".data]
      = ["user_data".data, s2.data, g2.data, "chat.json".data] := by
    rw [← List.splitOn_intercalate _ '/' hx1 (by simp),
      ← List.splitOn_intercalate _ '/' hx2 (by simp), hd]
  simp only [List.cons.injEq, and_true, true_and] at hsplit
  exact ⟨congrArg String.mk hsplit.1, congrArg String.mk hsplit.2⟩

/-- Claim C5, witness: the injectivity theorem applied at safe ids. -/
theorem getChatFilePath_injective_witness :
    ("aa" : String) = "aa" ∧ ("bb" : String) = "bb" :=
  getChatFilePath_injective_on_safe_ids "aa" "bb" "aa" "bb"
    (by decide) (by decide) (by decide) (by decide) rfl

/-! ## Claim C6 -/

/-- Claim C6, counterexample: a read of a nonexistent log does not fix
`createdAt` — it persists nothing, so a second read at a later time
materializes a fresh log with a different `createdAt` (2 instead of 1),
contradicting the claim that `createdAt` is fixed at the first read of a
nonexistent log and never changes across subsequent loads. -/
theorem load_createdAt_not_fixed_by_read :
    loadChatHistory emptyStore 1 "s" "g" = .history ⟨[], "g", "s", 1, 1⟩ ∧
    loadChatHistory emptyStore 2 "s" "g" = .history ⟨[], "g", "s", 2, 2⟩ ∧
    (1 : Int) ≠ 2 :=
  ⟨rfl, rfl, by decide⟩

/-- Claim C6, amended: `createdAt` is fixed at the first successful
persist of the key and never changes across all subsequent load and
append operations: once a well-formed record with `createdAt = c` is
stored, any sequence of `appendMessage` calls leaves a record that still
loads with `createdAt = c` (loads are pure and reads of a nonexistent key
persist nothing, so only the first persist fixes `createdAt`). -/
theorem createdAt_fixed_after_first_persist (store : Store)
    (sid gid : String) (c : Int) (ops : List AppendOp) (t : Int)
    (h : ∃ hist : ChatHistory,
      store (getChatFilePath sid gid) = some (.parsed (.history hist)) ∧
      hist.createdAt = c) :
    ∃ h', loadChatHistory (runAppends sid gid store ops) t sid gid
        = .history h' ∧ h'.createdAt = c := by
  induction ops generalizing store with
  | nil =>
    obtain ⟨hist, hh, hc⟩ := h
    exact ⟨hist, by simp [runAppends, loadChatHistory, hh], hc⟩
  | cons op rest ih =>
    obtain ⟨hist, hh, hc⟩ := h
    have hload : loadChatHistory store op.tLoad sid gid = .history hist := by
      simp [loadChatHistory, hh]
    have happ := appendMessage_of_history store sid gid hist op.m op.tLoad
      op.tSave hload
    simp only [runAppends, happ]
    exact ih _ ⟨appended hist op.m op.tSave, by simp [writeFile], hc⟩

/-- Claim C6, witness: a record persisted at time 5 still loads with
`createdAt = 5` after a later append. -/
theorem createdAt_fixed_after_first_persist_witness :
    ∃ h', loadChatHistory
        (runAppends "s" "g" storeCreatedFive [⟨⟨.user, "x", 6⟩, 6, 7⟩])
        9 "s" "g"
        = .history h' ∧ h'.createdAt = 5 :=
  createdAt_fixed_after_first_persist storeCreatedFive "s" "g" 5
    [⟨⟨.user, "x", 6⟩, 6, 7⟩] 9
    ⟨⟨[], "g", "s", 5, 5⟩, by simp [storeCreatedFive, writeFile], rfl⟩

/-! ## Claim C8 -/

/-- Claim C8: for every key and every well-formed `ChatHistory`,
`saveChatHistory` followed by `loadChatHistory` on the same key returns a
log whose messages are identical to the saved ones — same order and same
role, content, and timestamp fields (the whole message list is equal);
only `updatedAt` is refreshed by the save. -/
theorem save_then_load_roundtrip (store : Store) (tSave tLoad : Int)
    (sid gid : String) (h : ChatHistory) :
    ∃ st' : Store,
      saveChatHistory store tSave sid gid (.history h)
        = some (.history { h with updatedAt := tSave }, st') ∧
      loadChatHistory st' tLoad sid gid
        = .history { h with updatedAt := tSave } ∧
      ChatHistory.messages { h with updatedAt := tSave } = h.messages := by
  refine ⟨writeFile store (getChatFilePath sid gid)
    (.parsed (.history { h with updatedAt := tSave })), rfl, ?_, rfl⟩
  simp [loadChatHistory, writeFile]

/-! ## Claim C9 -/

/-- Claim C9: `deleteChatHistory` removes the persisted record if present
and is a no-op rather than an error when the record is absent: deleting a
never-existing key leaves the file system unchanged, the key is absent
after any delete, and deleting twice equals deleting once. -/
theorem deleteChatHistory_idempotent_no_error (store : Store)
    (sid gid : String) :
    (store (getChatFilePath sid gid) = none →
      ∀ p, deleteChatHistory store sid gid p = store p) ∧
    deleteChatHistory store sid gid (getChatFilePath sid gid) = none ∧
    ∀ p, deleteChatHistory (deleteChatHistory store sid gid) sid gid p
          = deleteChatHistory store sid gid p := by
  cases h : store (getChatFilePath sid gid) with
  | none =>
    refine ⟨fun _ p => ?_, ?_, fun p => ?_⟩ <;>
      simp [deleteChatHistory, unlink, h]
  | some d =>
    refine ⟨fun hc => absurd hc (by simp), ?_, fun p => ?_⟩
    · simp [deleteChatHistory, unlink, h, removeFile]
    · simp [deleteChatHistory, unlink, h, removeFile]

/-- Claim C9, witness: deleting a never-existing key on the empty file
system changes nothing at the resolved location. -/
theorem deleteChatHistory_idempotent_witness :
    deleteChatHistory emptyStore "s1" "g1" (getChatFilePath "s1" "g1")
      = emptyStore (getChatFilePath "s1" "g1") :=
  (deleteChatHistory_idempotent_no_error emptyStore "s1" "g1").1 rfl
    (getChatFilePath "s1" "g1")

/-! ## Claim C10 -/

/-- Claim C10: `loadChatHistory` performs no shape validation — any
stored content that parses is returned to the caller as-is — and a
subsequent `appendMessage` on a key whose stored value has no `messages`
array (such as the JSON literal `null`, a number, or an object without a
`messages` field) fails with a thrown `TypeError` instead of degrading to
an empty log. -/
theorem load_returns_raw_append_fails_on_malformed (store : Store)
    (tL tL2 tS : Int) (sid gid : String) (v : JsVal) (m : Message) (j : Json)
    (hstored : store (getChatFilePath sid gid) = some (.parsed v)) :
    loadChatHistory store tL sid gid = v ∧
    (v = .other j → (∀ xs, jsProp j "messages" ≠ some (.arr xs)) →
      appendMessage store tL2 tS sid gid m = none) := by
  constructor
  · simp [loadChatHistory, hstored]
  · intro hv hno
    subst hv
    simp only [appendMessage, loadChatHistory, hstored]
    cases j with
    | obj fs =>
      cases hjm : jsProp (.obj fs) "messages" with
      | none => simp [pushMessage, hjm]
      | some jv =>
        cases jv with
        | arr xs => exact absurd hjm (hno xs)
        | _ => simp [pushMessage, hjm]
    | _ => simp [pushMessage]

/-- Claim C10, witness: a stored JSON `null` is returned as-is by load,
and append on that key fails. -/
theorem load_returns_raw_append_fails_witness :
    loadChatHistory storeWithNullRecord 5 "s" "g" = .other .null ∧
    appendMessage storeWithNullRecord 6 7 "s" "g" ⟨.user, "x", 1⟩ = none := by
  have hs : storeWithNullRecord (getChatFilePath "s" "g")
      = some (.parsed (.other .null)) := by
    simp [storeWithNullRecord, writeFile]
  exact ⟨(load_returns_raw_append_fails_on_malformed storeWithNullRecord
      5 6 7 "s" "g" _ ⟨.user, "x", 1⟩ .null hs).1,
    (load_returns_raw_append_fails_on_malformed storeWithNullRecord
      5 6 7 "s" "g" _ ⟨.user, "x", 1⟩ .null hs).2 rfl
      (by intro xs hx; simp [jsProp] at hx)⟩

end OpenStory

namespace OpenStory

/-! ## Claim C7 -/

/-- Claim C7: when the request body message is missing (or not a string)
or is empty after trimming, the handler fails with the validation error
and performs no side effects — the file system is returned unchanged and
the provider is never invoked, so the persisted log for every key is left
as it was. -/
theorem respond_validation_error_no_side_effects (store : Store)
    (games : List Game) (sid gid : String) (provider : Provider)
    (t : RespondTimes) (message : Option String)
    (h : message = none ∨ ∃ s, message = some s ∧ jsTrim s = "") :
    (respond store games sid gid message provider t).outcome
        = .error .validationError ∧
    (respond store games sid gid message provider t).store = store ∧
    (respond store games sid gid message provider t).sent = none := by
  rcases h with h | ⟨s, hm, hs⟩
  · subst h; exact ⟨rfl, rfl, rfl⟩
  · subst hm; simp [respond, hs]

/-- Claim C7, witness: a whitespace-only message on the empty store. -/
theorem respond_validation_error_witness :
    (respond emptyStore [] "s" "g" (some "   ") (fun _ => .ok none)
        ⟨0, 0, 0, 0, 0, 0, 0⟩).outcome = .error .validationError ∧
    (respond emptyStore [] "s" "g" (some "   ") (fun _ => .ok none)
        ⟨0, 0, 0, 0, 0, 0, 0⟩).store = emptyStore ∧
    (respond emptyStore [] "s" "g" (some "   ") (fun _ => .ok none)
        ⟨0, 0, 0, 0, 0, 0, 0⟩).sent = none :=
  respond_validation_error_no_side_effects emptyStore [] "s" "g"
    (fun _ => .ok none) ⟨0, 0, 0, 0, 0, 0, 0⟩ (some "   ")
    (Or.inr ⟨"   ", rfl, rfl⟩)

/-! ## Claim C4 -/

/-- Claim C4: when the completion provider call fails — it raises, or it
returns missing or empty content — the handler fails with the provider
error while the user message remains persisted: a subsequent load on the
key shows exactly one new message, the trimmed user message, and no
assistant message is ever appended. -/
theorem respond_provider_failure_keeps_user_message (store : Store)
    (games : List Game) (sid gid : String) (msg : String)
    (provider : Provider) (t : RespondTimes) (game : Game)
    (ms : List Message) (tAfter : Int)
    (hmsg : jsTrim msg ≠ "")
    (hgame : getGameById games gid = some game)
    (hms : storedMessages store sid gid = some ms)
    (hprov : ∀ req, providerFails (provider req)) :
    ∃ e, (respond store games sid gid (some msg) provider t).outcome
        = .error (.providerError e) ∧
      ∃ hist, loadChatHistory
          (respond store games sid gid (some msg) provider t).store
          tAfter sid gid = .history hist ∧
        hist.messages = ms ++ [⟨.user, jsTrim msg, t.tUser⟩] := by
  obtain ⟨hist0, hload, hmsgs⟩ :=
    load_of_storedMessages store sid gid ms t.tAppend1Load hms
  have happ := appendMessage_of_history store sid gid hist0
    ⟨.user, jsTrim msg, t.tUser⟩ t.tAppend1Load t.tAppend1Save hload
  have hfinal : loadChatHistory
      (writeFile store (getChatFilePath sid gid)
        (.parsed (.history (appended hist0 ⟨.user, jsTrim msg, t.tUser⟩
          t.tAppend1Save))))
      tAfter sid gid
      = .history (appended hist0 ⟨.user, jsTrim msg, t.tUser⟩
          t.tAppend1Save) := by
    simp [loadChatHistory, writeFile]
  have hmsgs2 : (appended hist0 ⟨.user, jsTrim msg, t.tUser⟩
      t.tAppend1Save).messages = ms ++ [⟨.user, jsTrim msg, t.tUser⟩] := by
    simp [appended, hmsgs]
  have hthis := hprov (buildCompletionMessages game.systemPrompt
    (jsMessages (loadChatHistory store t.tHist sid gid)) (jsTrim msg))
  simp only [respond, if_neg hmsg, hgame, getChatCompletion, happ]
  cases hpr : provider (buildCompletionMessages game.systemPrompt
      (jsMessages (loadChatHistory store t.tHist sid gid)) (jsTrim msg)) with
  | error e =>
    simp only [hpr]
    exact ⟨e, rfl, _, hfinal, hmsgs2⟩
  | ok content =>
    cases content with
    | none =>
      simp only [hpr]
      exact ⟨"No response content from OpenAI", rfl, _, hfinal, hmsgs2⟩
    | some c =>
      rw [hpr] at hthis
      have hc : c = "" := hthis
      subst hc
      simp only [hpr]
      exact ⟨"No response content from OpenAI", rfl, _, hfinal, hmsgs2⟩

/-- Claim C4, witness: a provider stub that raises, on an empty store
with the demo game. -/
theorem respond_provider_failure_witness :
    ∃ e, (respond emptyStore [demoGame] "s1" "fantasy-quest" (some "Hello")
        (fun _ => .error "boom") ⟨0, 1, 2, 3, 4, 5, 6⟩).outcome
        = .error (.providerError e) ∧
      ∃ hist, loadChatHistory
          (respond emptyStore [demoGame] "s1" "fantasy-quest" (some "Hello")
            (fun _ => .error "boom") ⟨0, 1, 2, 3, 4, 5, 6⟩).store
          9 "s1" "fantasy-quest" = .history hist ∧
        hist.messages = [] ++ [⟨.user, jsTrim "Hello", 1⟩] :=
  respond_provider_failure_keeps_user_message emptyStore [demoGame]
    "s1" "fantasy-quest" "Hello" (fun _ => .error "boom")
    ⟨0, 1, 2, 3, 4, 5, 6⟩ demoGame [] 9 (by decide) rfl rfl
    (fun _ => True.intro)

/-! ## Claim C2 -/

/-- Claim C2: for every successful call of the handler, the request
sequence sent to the completion provider is exactly the system prompt of
the resolved game as the single first system-role entry, followed by
every message of the loaded (pre-append) history whose role is not
`system`, projected to role and content in stored order with no
reordering or truncation, followed by the new trimmed user message as the
last entry. -/
theorem respond_provider_request_shape (store : Store) (games : List Game)
    (sid gid : String) (msg : String) (provider : Provider)
    (t : RespondTimes) (h0 : ChatHistory) (game : Game) (u a : Message)
    (hgame : getGameById games gid = some game)
    (hload : loadChatHistory store t.tHist sid gid = .history h0)
    (hok : (respond store games sid gid (some msg) provider t).outcome
      = .ok (u, a)) :
    ∃ req, (respond store games sid gid (some msg) provider t).sent
        = some req ∧
      req = buildCompletionMessages game.systemPrompt
          (h0.messages.map messageToJson) (jsTrim msg) ∧
      req.head? = some ⟨some (.str "system"), some (.str game.systemPrompt)⟩ ∧
      req.countP isSystemParam = 1 ∧
      (req.drop 1).dropLast
        = (h0.messages.filter (fun m => !(m.role == Role.system))).map
            (fun m => ⟨some (.str m.role.toStr), some (.str m.content)⟩) ∧
      req.getLast? = some ⟨some (.str "user"), some (.str (jsTrim msg))⟩ := by
  have hmsg : ¬(jsTrim msg = "") := by
    intro he
    simp [respond, he] at hok
  obtain ⟨hist1, hload1⟩ :=
    load_history_any_time store sid gid t.tHist t.tAppend1Load h0 hload
  have happ := appendMessage_of_history store sid gid hist1
    ⟨.user, jsTrim msg, t.tUser⟩ t.tAppend1Load t.tAppend1Save hload1
  have hsent : (respond store games sid gid (some msg) provider t).sent
      = some (buildCompletionMessages game.systemPrompt
          (jsMessages (loadChatHistory store t.tHist sid gid))
          (jsTrim msg)) := by
    simp only [respond, if_neg hmsg, hgame, getChatCompletion, happ]
    cases hpr : provider (buildCompletionMessages game.systemPrompt
        (jsMessages (loadChatHistory store t.tHist sid gid))
        (jsTrim msg)) with
    | error e => simp [hpr]
    | ok content =>
      cases content with
      | none => simp [hpr]
      | some c =>
        by_cases hc : c = ""
        · subst hc; simp [hpr]
        · have hload2 : loadChatHistory
              (writeFile store (getChatFilePath sid gid)
                (.parsed (.history (appended hist1 ⟨.user, jsTrim msg, t.tUser⟩
                  t.tAppend1Save))))
              t.tAppend2Load sid gid
              = .history (appended hist1 ⟨.user, jsTrim msg, t.tUser⟩
                  t.tAppend1Save) := by
            simp [loadChatHistory, writeFile]
          have happ2 := appendMessage_of_history _ sid gid _
            ⟨.assistant, c, t.tAssistant⟩ t.tAppend2Load t.tAppend2Save hload2
          simp only [hpr, if_neg hc, happ2]
  rw [hload] at hsent
  simp only [jsMessages] at hsent
  refine ⟨_, hsent, rfl, rfl, ?_, ?_, ?_⟩
  · simp only [buildCompletionMessages, List.countP_cons, List.countP_append]
    have hmid : List.countP isSystemParam
        (((h0.messages.map messageToJson).filter
          (fun msg => !(isSystemRole msg))).map
            (fun msg => ⟨jsProp msg "role", jsProp msg "content"⟩)) = 0 := by
      rw [List.countP_eq_zero]
      intro e he
      obtain ⟨jm, hjm, rfl⟩ := List.mem_map.1 he
      have hf := (List.mem_filter.1 hjm).2
      rw [isSystemParam_proj]
      simp only [Bool.not_eq_true'] at hf
      simp [hf]
    rw [hmid]
    rfl
  · simp only [buildCompletionMessages, List.drop_succ_cons, List.drop_zero,
      List.dropLast_concat]
    rw [buildCompletionMessages_middle, List.map_map]
    have hfun : ((fun msg => (⟨jsProp msg "role", jsProp msg "content"⟩ :
          CompletionParam)) ∘ messageToJson)
        = fun m : Message =>
            (⟨some (.str m.role.toStr), some (.str m.content)⟩ :
              CompletionParam) :=
      funext fun m => rfl
    rw [hfun]
  · simp only [buildCompletionMessages]
    rw [← List.cons_append, List.getLast?_concat]

/-- Claim C2, witness: the spec scenario — empty history, the demo game,
message `Hello`, and a stub provider answering `Greetings, traveler.`. -/
theorem respond_provider_request_shape_witness :
    ∃ req, (respond emptyStore [demoGame] "s1" "fantasy-quest" (some "Hello")
        (fun _ => .ok (some "Greetings, traveler."))
        ⟨0, 1, 2, 3, 4, 5, 6⟩).sent = some req ∧
      req = buildCompletionMessages demoGame.systemPrompt
          ((⟨[], "fantasy-quest", "s1", 0, 0⟩ :
            ChatHistory).messages.map messageToJson) (jsTrim "Hello") ∧
      req.head? = some ⟨some (.str "system"),
        some (.str demoGame.systemPrompt)⟩ ∧
      req.countP isSystemParam = 1 ∧
      (req.drop 1).dropLast
        = ((⟨[], "fantasy-quest", "s1", 0, 0⟩ :
            ChatHistory).messages.filter
              (fun m => !(m.role == Role.system))).map
            (fun m => ⟨some (.str m.role.toStr), some (.str m.content)⟩) ∧
      req.getLast? = some ⟨some (.str "user"),
        some (.str (jsTrim "Hello"))⟩ :=
  respond_provider_request_shape emptyStore [demoGame] "s1" "fantasy-quest"
    "Hello" (fun _ => .ok (some "Greetings, traveler."))
    ⟨0, 1, 2, 3, 4, 5, 6⟩ ⟨[], "fantasy-quest", "s1", 0, 0⟩ demoGame
    ⟨.user, "Hello", 1⟩ ⟨.assistant, "Greetings, traveler.", 4⟩
    rfl rfl rfl

end OpenStory
